import Mathlib

/-!
Verification of the mentat repository's core: the command parser
(`src/core/parser.py`), the workflow registry (`src/core/workflow.py`),
the LLM backend conversation state machine (`src/core/backend.py`) and
the twitter workflow's reply generation (`src/workflows/twitter/twitter.py`),
shallowly embedded in Lean.

Python strings are modelled as `List Char`; Python `str.lower`, `str.strip`,
`in` (substring test) and `str.split` are modelled by `pyLower`, `pyStrip`,
`pyIn` and `pySplit` below.
-/

namespace Mentat

/-- The six whitespace characters recognised by Python `str.strip`. -/
def pyIsSpace (c : Char) : Bool :=
  c == ' ' || c == '\t' || c == '\n' || c == '\r' || c == '\x0b' || c == '\x0c'

/-- Python `str.lower` (ASCII range, which is all the parser vocabulary uses). -/
def pyLower (s : List Char) : List Char := s.map Char.toLower

/-- Python `str.strip`: remove leading and trailing whitespace. -/
def pyStrip (s : List Char) : List Char :=
  ((s.dropWhile pyIsSpace).reverse.dropWhile pyIsSpace).reverse

/-- Python `pat in s`: substring occurrence test. -/
def pyIn (pat : List Char) : List Char → Bool
  | [] => pat.isEmpty
  | c :: rest => pat.isPrefixOf (c :: rest) || pyIn pat rest

/-- Worker for `pySplit`. The fuel only serves structural recursion; each
step consumes at least one character, so `s.length` fuel is enough. -/
def pySplitAux (sep : List Char) : Nat → List Char → List (List Char)
  | _, [] => [[]]
  | 0, s => [s]
  | fuel + 1, c :: rest =>
    if sep ≠ [] ∧ sep.isPrefixOf (c :: rest) then
      [] :: pySplitAux sep fuel (List.drop sep.length (c :: rest))
    else
      match pySplitAux sep fuel rest with
      | [] => [[c]]
      | h :: t => (c :: h) :: t

/-- Python `s.split(sep)` for a non-empty separator: split on leftmost,
non-overlapping occurrences. (Python raises on an empty separator; the
embedded code never calls it that way, and we return `[s]` then.) -/
def pySplit (sep s : List Char) : List (List Char) := pySplitAux sep s.length s

instance {ε α : Type} [DecidableEq ε] [DecidableEq α] : DecidableEq (Except ε α) :=
  fun x y =>
  match x, y with
  | .ok a, .ok b =>
    if h : a = b then isTrue (by rw [h]) else isFalse (fun hc => h (Except.ok.inj hc))
  | .error a, .error b =>
    if h : a = b then isTrue (by rw [h]) else isFalse (fun hc => h (Except.error.inj hc))
  | .ok _, .error _ => isFalse (fun hc => Except.noConfusion hc)
  | .error _, .ok _ => isFalse (fun hc => Except.noConfusion hc)

/-- Shorthand: the character list of a string literal. -/
def chars (s : String) : List Char := s.data

/-- Errors raised by `CommandParser` (`ValueError`s in the source, named
after the spec's taxonomy). -/
inductive ParseError where
  | commandNotRecognized
  | contentNotExtracted
deriving DecidableEq, Repr

/-- The triple returned by `CommandParser.parse_command`. A parameter value
is `none` when the Python code passes `None` (the `mention_id` case). -/
structure ParsedCommand where
  workflow : List Char
  command : List Char
  params : List (List Char × Option (List Char))
deriving DecidableEq, Repr

/-- One iteration of `_extract_content`'s quote loop: if `q` occurs in
`command` and splitting on it yields at least 3 parts, the content is
`parts[1]`. -/
def tryQuote (q : Char) (command : List Char) : Option (List Char) :=
  if pyIn [q] command then
    let parts := pySplit [q] command
    if parts.length ≥ 3 then some (parts.getD 1 []) else none
  else none

/-- The ordered trigger phrases of `_extract_content`'s fallback loop. -/
def contentPhrases : List (List Char) :=
  [chars "saying", chars "tweet", chars "post", chars "with content", chars "with text"]

/-- `_extract_content`'s fallback: content after the first occurring phrase,
stripped; an empty remainder moves on to the next phrase. -/
def extractAfterPhrase : List (List Char) → List Char → Except ParseError (List Char)
  | [], _ => .error .contentNotExtracted
  | p :: ps, command =>
    if pyIn p command then
      let content := pyStrip ((pySplit p command).getD 1 [])
      if content ≠ [] then .ok content else extractAfterPhrase ps command
    else extractAfterPhrase ps command

/-- `CommandParser._extract_content`: first the quote loop (single quote
before double quote), then the phrase fallback, else `ContentNotExtracted`. -/
def extractContent (command : List Char) : Except ParseError (List Char) :=
  match tryQuote '\x27' command with
  | some content => .ok content
  | none =>
    match tryQuote '"' command with
    | some content => .ok content
    | none => extractAfterPhrase contentPhrases command

/-- The mention-check phrases of `parse_command`. -/
def mentionPhrases : List (List Char) :=
  [chars "check mention", chars "recent mention", chars "show mention",
   chars "view mention", chars "get mention"]

/-- `CommandParser.parse_command`: lowercases and strips the input, routes on
the twitter keywords, then mentions before reply before post. -/
def parseCommand (input : List Char) : Except ParseError ParsedCommand :=
  let command := pyStrip (pyLower input)
  if pyIn (chars "tweet") command || pyIn (chars "twitter") command
      || pyIn (chars "mention") command then
    let workflow := chars "twitter"
    if mentionPhrases.any (fun p => pyIn p command) then
      .ok ⟨workflow, chars "mentions", []⟩
    else if pyIn (chars "reply") command || pyIn (chars "respond") command then
      let mentionId : Option (List Char) :=
        if pyIn (chars "to mention") command && pyIn (chars "id") command then
          some (pyStrip ((pySplit (chars "id") command).getLastD []))
        else none
      .ok ⟨workflow, chars "reply", [(chars "mention_id", mentionId)]⟩
    else if pyIn (chars "post") command || pyIn (chars "send") command
        || pyIn (chars "tweet") command then
      match extractContent command with
      | .ok content => .ok ⟨workflow, chars "post", [(chars "content", some content)]⟩
      | .error e => .error e
    else .error .commandNotRecognized
  else .error .commandNotRecognized

/-! ### Lemmas about the split on a single-character separator -/

/-- `pySplit` on a single-character separator, in directly structural form. -/
def pySplitChar (q : Char) : List Char → List (List Char)
  | [] => [[]]
  | c :: rest =>
    if c = q then [] :: pySplitChar q rest
    else
      match pySplitChar q rest with
      | [] => [[c]]
      | h :: t => (c :: h) :: t

theorem pySplitAux_singleton (q : Char) (fuel : Nat) (s : List Char)
    (h : s.length ≤ fuel) : pySplitAux [q] fuel s = pySplitChar q s := by
  induction fuel generalizing s with
  | zero =>
    have hnil : s = [] := List.eq_nil_of_length_eq_zero (Nat.le_zero.mp h)
    subst hnil; rfl
  | succ n ih =>
    cases s with
    | nil => rfl
    | cons c rest =>
      have hrest : rest.length ≤ n := Nat.le_of_succ_le_succ (by simpa using h)
      by_cases hc : c = q
      · subst hc
        have hcond : ([c] ≠ []) ∧ ([c].isPrefixOf (c :: rest) = true) := by
          simp [List.isPrefixOf]
        simp only [pySplitAux, pySplitChar, if_pos hcond]
        simp only [List.length_cons, List.length_nil, Nat.zero_add, List.drop_succ_cons,
          List.drop_zero]
        rw [ih rest hrest]
        simp
      · have hcond : ¬ (([q] ≠ []) ∧ ([q].isPrefixOf (c :: rest) = true)) := by
          simp [List.isPrefixOf]
          intro hqc
          exact absurd hqc.symm hc
        simp only [pySplitAux, pySplitChar, if_neg hcond, if_neg hc]
        rw [ih rest hrest]

theorem pySplit_singleton (q : Char) (s : List Char) :
    pySplit [q] s = pySplitChar q s :=
  pySplitAux_singleton q s.length s (Nat.le_refl _)

theorem pySplitChar_ne_nil (q : Char) (s : List Char) : pySplitChar q s ≠ [] := by
  cases s with
  | nil => simp [pySplitChar]
  | cons c rest =>
    simp only [pySplitChar]
    by_cases hc : c = q
    · simp [hc]
    · simp only [if_neg hc]
      cases pySplitChar q rest <;> simp

/-- Splitting `a ++ q :: t` on `q`, when `q` does not occur in `a`, yields `a`
followed by the split of `t`. -/
theorem pySplitChar_append (q : Char) (a t : List Char) (ha : q ∉ a) :
    pySplitChar q (a ++ q :: t) = a :: pySplitChar q t := by
  induction a with
  | nil => simp [pySplitChar]
  | cons c a ih =>
    have hc : ¬ c = q := fun h => ha (h ▸ List.mem_cons_self c a)
    have ha' : q ∉ a := fun h => ha (List.mem_cons_of_mem c h)
    simp only [List.cons_append, pySplitChar, if_neg hc, List.append_eq, ih ha']

theorem pyIn_of_mem (q : Char) (s : List Char) (h : q ∈ s) : pyIn [q] s = true := by
  induction s with
  | nil => cases h
  | cons c rest ih =>
    simp only [pyIn, Bool.or_eq_true]
    rcases List.mem_cons.mp h with h1 | h2
    · left; subst h1; simp [List.isPrefixOf]
    · right; exact ih h2

/-- When the command contains a matching pair of single quotes (`q ∉ a`,
`q ∉ b` locate the first pair), `_extract_content` returns the text between
them. -/
theorem extractContent_quoted (a b c : List Char)
    (ha : '\x27' ∉ a) (hb : '\x27' ∉ b) :
    extractContent (a ++ '\x27' :: (b ++ '\x27' :: c)) = .ok b := by
  have hmem : '\x27' ∈ a ++ '\x27' :: (b ++ '\x27' :: c) := by
    simp
  have hsplit : pySplit ['\x27'] (a ++ '\x27' :: (b ++ '\x27' :: c))
      = a :: b :: pySplitChar '\x27' c := by
    rw [pySplit_singleton, pySplitChar_append '\x27' a _ ha]
    rw [pySplitChar_append '\x27' b c hb]
  have hpos : 1 ≤ (pySplitChar '\x27' c).length :=
    List.length_pos.mpr (pySplitChar_ne_nil '\x27' c)
  unfold extractContent tryQuote
  rw [pyIn_of_mem '\x27' _ hmem, hsplit]
  simp [hpos]

/-! ### Claim theorems about the command parser -/

/-- C1 counterexample: `parse_command("post a tweet saying 'Hello World'")`
does not return content `"Hello World"`; the source lowercases the whole
input before extracting, so the content comes out as `"hello world"`. -/
theorem parse_quoted_content_cex :
    parseCommand (chars "post a tweet saying \x27Hello World\x27") ≠
      .ok ⟨chars "twitter", chars "post",
        [(chars "content", some (chars "Hello World"))]⟩ ∧
    parseCommand (chars "post a tweet saying \x27Hello World\x27") =
      .ok ⟨chars "twitter", chars "post",
        [(chars "content", some (chars "hello world"))]⟩ :=
  ⟨by decide, by decide⟩

/-- C1 (amended): for every command string that routes to the twitter post
command and whose lowercased, stripped form contains a matching pair of
single quotes, `parse_command` returns as content exactly the text between
the first such pair in the lowercased, stripped input. -/
theorem parse_post_quoted_content (input a b c : List Char)
    (hs : pyStrip (pyLower input) = a ++ '\x27' :: (b ++ '\x27' :: c))
    (ha : '\x27' ∉ a) (hb : '\x27' ∉ b)
    (hkw : (pyIn (chars "tweet") (pyStrip (pyLower input))
        || pyIn (chars "twitter") (pyStrip (pyLower input))
        || pyIn (chars "mention") (pyStrip (pyLower input))) = true)
    (hm : mentionPhrases.any (fun p => pyIn p (pyStrip (pyLower input))) = false)
    (hr1 : pyIn (chars "reply") (pyStrip (pyLower input)) = false)
    (hr2 : pyIn (chars "respond") (pyStrip (pyLower input)) = false)
    (hp : (pyIn (chars "post") (pyStrip (pyLower input))
        || pyIn (chars "send") (pyStrip (pyLower input))
        || pyIn (chars "tweet") (pyStrip (pyLower input))) = true) :
    parseCommand input
      = .ok ⟨chars "twitter", chars "post", [(chars "content", some b)]⟩ := by
  have hext : extractContent (pyStrip (pyLower input)) = .ok b := by
    rw [hs]
    exact extractContent_quoted a b c ha hb
  unfold parseCommand
  simp [hkw, hm, hr1, hr2, hp, hext]

/-- C1 witness: the amended claim at the spec's own example. -/
theorem parse_post_quoted_content_witness :
    pyStrip (pyLower (chars "post a tweet saying \x27Hello World\x27")) =
      chars "post a tweet saying " ++ '\x27' :: (chars "hello world" ++ '\x27' :: []) ∧
    parseCommand (chars "post a tweet saying \x27Hello World\x27") =
      .ok ⟨chars "twitter", chars "post",
        [(chars "content", some (chars "hello world"))]⟩ :=
  ⟨by decide,
   parse_post_quoted_content (chars "post a tweet saying \x27Hello World\x27")
     (chars "post a tweet saying ") (chars "hello world") []
     (by decide) (by decide) (by decide) (by decide) (by decide) (by decide)
     (by decide) (by decide)⟩

/-- C4: a command string whose lowercased, stripped form contains none of the
workflow keywords "tweet", "twitter", "mention" fails with
`CommandNotRecognized`. -/
theorem parse_unrecognized (input : List Char)
    (h1 : pyIn (chars "tweet") (pyStrip (pyLower input)) = false)
    (h2 : pyIn (chars "twitter") (pyStrip (pyLower input)) = false)
    (h3 : pyIn (chars "mention") (pyStrip (pyLower input)) = false) :
    parseCommand input = .error .commandNotRecognized := by
  unfold parseCommand
  simp [h1, h2, h3]

/-- C4 witness: "order me a pizza" contains no workflow keyword and raises
`CommandNotRecognized`. -/
theorem parse_unrecognized_witness :
    pyIn (chars "tweet") (pyStrip (pyLower (chars "order me a pizza"))) = false ∧
    parseCommand (chars "order me a pizza") = .error .commandNotRecognized :=
  ⟨by decide,
   parse_unrecognized (chars "order me a pizza") (by decide) (by decide) (by decide)⟩

/-- C8: keyword priority. Whenever a twitter keyword is present, a matching
mentions-check phrase yields the "mentions" command regardless of any reply
or post keywords, and otherwise a "reply"/"respond" keyword yields the
"reply" command regardless of any post keywords. -/
theorem parse_keyword_priority (input : List Char)
    (hkw : (pyIn (chars "tweet") (pyStrip (pyLower input))
        || pyIn (chars "twitter") (pyStrip (pyLower input))
        || pyIn (chars "mention") (pyStrip (pyLower input))) = true) :
    (mentionPhrases.any (fun p => pyIn p (pyStrip (pyLower input))) = true →
      parseCommand input = .ok ⟨chars "twitter", chars "mentions", []⟩) ∧
    (mentionPhrases.any (fun p => pyIn p (pyStrip (pyLower input))) = false →
      (pyIn (chars "reply") (pyStrip (pyLower input))
        || pyIn (chars "respond") (pyStrip (pyLower input))) = true →
      ∃ mid, parseCommand input
        = .ok ⟨chars "twitter", chars "reply", [(chars "mention_id", mid)]⟩) := by
  constructor
  · intro hm
    unfold parseCommand
    simp [hkw, hm]
  · intro hm hr
    refine ⟨if pyIn (chars "to mention") (pyStrip (pyLower input))
          && pyIn (chars "id") (pyStrip (pyLower input)) then
        some (pyStrip ((pySplit (chars "id") (pyStrip (pyLower input))).getLastD []))
      else none, ?_⟩
    unfold parseCommand
    simp [hkw, hm, hr]

/-- C8 witness: the two scenario inputs of the spec. -/
theorem parse_keyword_priority_witness :
    parseCommand (chars "Check my recent mentions")
      = .ok ⟨chars "twitter", chars "mentions", []⟩ ∧
    parseCommand (chars "reply to mention id 12345")
      = .ok ⟨chars "twitter", chars "reply",
          [(chars "mention_id", some (chars "12345"))]⟩ :=
  ⟨(parse_keyword_priority (chars "Check my recent mentions") (by decide)).1 (by decide),
   by decide⟩

example : pySplit (chars "id") (chars "reply to mention id 12345") =
    [chars "reply to mention ", chars " 12345"] := by decide

/-! ## Workflow registry (`src/core/workflow.py`)

A workflow's `validate_environment` and `execute_command` read the ambient
external environment (credential files, network); that environment is
modelled as a value of an abstract type `σ` passed in at each call, since it
may change between calls. -/

/-- A workflow as the registry sees it: derived name, description, command
map, `validate_environment` and `execute_command`. -/
structure Wf (σ ρ : Type) where
  name : String
  description : String
  commands : List (String × String)
  validate : σ → Bool
  execCmd : σ → String → List (String × String) → ρ

/-- Errors raised by `WorkflowManager` (`ValueError` / `EnvironmentError` in
the source, named after the spec's taxonomy). -/
inductive RegistryError where
  | duplicateWorkflow (name : String)
  | workflowNotFound (name : String)
  | environmentNotConfigured (name : String)
deriving DecidableEq, Repr

/-- `WorkflowManager.workflows`: a name-keyed mapping (Python dict, modelled
as an insertion-ordered association list). -/
structure WorkflowManager (σ ρ : Type) where
  workflows : List (String × Wf σ ρ)

/-- `WorkflowManager.get_workflow`. -/
def getWorkflow {σ ρ : Type} (m : WorkflowManager σ ρ) (name : String) :
    Option (Wf σ ρ) :=
  m.workflows.lookup name

/-- `WorkflowManager.register_workflow`: raises `DuplicateWorkflow` before
touching the mapping when the name is already present. -/
def registerWorkflow {σ ρ : Type} (m : WorkflowManager σ ρ) (w : Wf σ ρ) :
    Except RegistryError (WorkflowManager σ ρ) :=
  if (getWorkflow m w.name).isSome then .error (.duplicateWorkflow w.name)
  else .ok ⟨m.workflows ++ [(w.name, w)]⟩

/-- `WorkflowManager.execute_workflow_command`: look up, re-validate, then
forward to `execute_command`. -/
def executeWorkflowCommand {σ ρ : Type} (m : WorkflowManager σ ρ) (env : σ)
    (workflowName command : String) (params : List (String × String)) :
    Except RegistryError ρ :=
  match getWorkflow m workflowName with
  | none => .error (.workflowNotFound workflowName)
  | some w =>
    if !(w.validate env) then .error (.environmentNotConfigured workflowName)
    else .ok (w.execCmd env command params)

theorem lookup_append_right {α β : Type} [BEq α] (l₁ l₂ : List (α × β)) (a : α)
    (h : l₁.lookup a = none) : (l₁ ++ l₂).lookup a = l₂.lookup a := by
  induction l₁ with
  | nil => simp
  | cons p l ih =>
    cases p with
    | mk k v =>
      rw [List.cons_append]
      cases hk : (a == k) with
      | true =>
        have hcontra : List.lookup a ((k, v) :: l) = some v := by
          simp only [List.lookup, hk]
        rw [hcontra] at h
        cases h
      | false =>
        have h1 : List.lookup a ((k, v) :: l) = List.lookup a l := by
          simp only [List.lookup, hk]
        have h2 : List.lookup a ((k, v) :: (l ++ l₂)) = List.lookup a (l ++ l₂) := by
          simp only [List.lookup, hk]
        rw [h1] at h
        rw [h2]
        exact ih h

/-! ### Claim theorems about the registry -/

/-- C2: every `execute` call re-runs `validate_environment` on the looked-up
workflow at that invocation. If validation holds at the first call's
environment and fails at the second call's, the first call forwards to
`execute_command` and the second fails with `EnvironmentNotConfigured`
without consulting `execute_command` — whatever `execute_command` is. -/
theorem execute_revalidates_each_call {σ ρ : Type}
    (m : WorkflowManager σ ρ) (w : Wf σ ρ) (n command : String)
    (params : List (String × String)) (env₁ env₂ : σ)
    (hw : getWorkflow m n = some w)
    (h₁ : w.validate env₁ = true) (h₂ : w.validate env₂ = false) :
    executeWorkflowCommand m env₁ n command params
      = .ok (w.execCmd env₁ command params) ∧
    executeWorkflowCommand m env₂ n command params
      = .error (.environmentNotConfigured n) := by
  unfold executeWorkflowCommand
  rw [hw]
  simp [h₁, h₂]

/-- The twitter workflow instance, as far as the registry claims need it:
name derived from the class name, description and command map from
`TwitterWorkflow.__init__` / `register_commands`. Environment: `σ := Bool`
stands for whether `check_configuration_exists` currently succeeds. -/
def twitterWf : Wf Bool String :=
  ⟨"twitter", "Post and manage tweets",
   [("post", "Post a new tweet"),
    ("mentions", "View recent mentions of your account"),
    ("reply", "Generate and post an AI response to a mention")],
   fun env => env,
   fun _ _ _ => "tweet posted"⟩

/-- A second workflow whose derived name collides with `twitterWf`. -/
def twitterWfClone : Wf Bool String :=
  ⟨"twitter", "another twitter workflow", [], fun _ => false, fun _ _ _ => "other"⟩

/-- C2 witness: a toggling environment, `true` then `false`. -/
theorem execute_revalidates_each_call_witness :
    getWorkflow (WorkflowManager.mk [("twitter", twitterWf)]) "twitter"
      = some twitterWf ∧
    executeWorkflowCommand (WorkflowManager.mk [("twitter", twitterWf)])
      true "twitter" "post" [] = .ok "tweet posted" ∧
    executeWorkflowCommand (WorkflowManager.mk [("twitter", twitterWf)])
      false "twitter" "post" [] = .error (.environmentNotConfigured "twitter") :=
  ⟨rfl,
   (execute_revalidates_each_call (WorkflowManager.mk [("twitter", twitterWf)])
      twitterWf "twitter" "post" [] true false rfl rfl rfl).1,
   (execute_revalidates_each_call (WorkflowManager.mk [("twitter", twitterWf)])
      twitterWf "twitter" "post" [] true false rfl rfl rfl).2⟩

/-- C3: registering a second workflow with an already-registered name fails
with `DuplicateWorkflow`, and the registry still maps the name to the first
workflow. -/
theorem register_duplicate_fails {σ ρ : Type}
    (m m' : WorkflowManager σ ρ) (w₁ w₂ : Wf σ ρ)
    (hname : w₂.name = w₁.name)
    (hreg : registerWorkflow m w₁ = .ok m') :
    registerWorkflow m' w₂ = .error (.duplicateWorkflow w₁.name) ∧
    getWorkflow m' w₁.name = some w₁ := by
  unfold registerWorkflow at hreg
  by_cases hdup : (getWorkflow m w₁.name).isSome = true
  · rw [if_pos hdup] at hreg
    cases hreg
  · rw [if_neg hdup] at hreg
    have hm' : m' = ⟨m.workflows ++ [(w₁.name, w₁)]⟩ := by
      cases hreg; rfl
    have hnone : m.workflows.lookup w₁.name = none := by
      cases hlk : m.workflows.lookup w₁.name with
      | none => rfl
      | some w => exact absurd (by simp [getWorkflow, hlk]) hdup
    have hget : getWorkflow m' w₁.name = some w₁ := by
      rw [hm']
      show (m.workflows ++ [(w₁.name, w₁)]).lookup w₁.name = some w₁
      rw [lookup_append_right _ _ _ hnone]
      simp [List.lookup]
    refine ⟨?_, hget⟩
    unfold registerWorkflow
    rw [hname, hget]
    rfl

/-- C3 witness: registering two workflows both named "twitter". -/
theorem register_duplicate_fails_witness :
    registerWorkflow (WorkflowManager.mk ([] : List (String × Wf Bool String)))
      twitterWf = .ok (WorkflowManager.mk [("twitter", twitterWf)]) ∧
    registerWorkflow (WorkflowManager.mk [("twitter", twitterWf)]) twitterWfClone
      = .error (.duplicateWorkflow "twitter") ∧
    getWorkflow (WorkflowManager.mk [("twitter", twitterWf)]) "twitter"
      = some twitterWf :=
  ⟨rfl,
   (register_duplicate_fails (WorkflowManager.mk [])
      (WorkflowManager.mk [("twitter", twitterWf)]) twitterWf twitterWfClone
      rfl rfl).1,
   (register_duplicate_fails (WorkflowManager.mk [])
      (WorkflowManager.mk [("twitter", twitterWf)]) twitterWf twitterWfClone
      rfl rfl).2⟩

example : parseCommand (chars "post a tweet saying \x27Hello World\x27") =
    .ok ⟨chars "twitter", chars "post", [(chars "content", some (chars "hello world"))]⟩ := by
  decide

example : parseCommand (chars "Check my recent mentions") =
    .ok ⟨chars "twitter", chars "mentions", []⟩ := by decide

example : parseCommand (chars "reply to mention id 12345") =
    .ok ⟨chars "twitter", chars "reply", [(chars "mention_id", some (chars "12345"))]⟩ := by
  decide

example : parseCommand (chars "order me a pizza") = .error .commandNotRecognized := by decide

/-! ## LLM backend (`src/core/backend.py`)

External collaborators are passed in at call time: `env` models the
Configuration Store (`Environment.get_env_var`), `api` models the litellm
`completion` call (`.error` models a raised exception), and the system
snapshot computed by `_get_system_context` is passed to `start_conversation`
as a value since it reads the platform and filesystem. -/

/-- One `{role, content}` turn. -/
structure Message where
  role : String
  content : String
deriving DecidableEq, Repr

/-- The mapping returned by `_get_system_context`; `os`, `terminal`,
`projectRoot` and `workflowsAvailable` come from the platform, the other two
fields are the constants of the source. -/
structure SystemContext where
  os : String
  terminal : String
  projectRoot : String
  workflowsAvailable : List String
  assistantName : String
  personality : String
deriving DecidableEq, Repr

/-- A value stored in the conversation context mapping. -/
inductive CtxVal where
  | str (s : String)
  | num (n : Nat)
  | sys (sc : SystemContext)
deriving DecidableEq, Repr

/-- The conversation context: a Python dict, modelled as an
insertion-ordered association list. -/
abbrev Ctx := List (String × CtxVal)

/-- Python `d[k] = v`: replace in place, or append a new key. -/
def ctxSet : Ctx → String → CtxVal → Ctx
  | [], k, v => [(k, v)]
  | (k0, v0) :: rest, k, v =>
    if k0 = k then (k, v) :: rest else (k0, v0) :: ctxSet rest k v

/-- Python `d.get(k)`. -/
def ctxGet : Ctx → String → Option CtxVal
  | [], _ => none
  | (k0, v0) :: rest, k => if k0 = k then some v0 else ctxGet rest k

/-- `LLMConfig.conversation_state`. -/
structure ConversationState where
  active : Bool
  context : Ctx
  history : List Message
  currentTask : Option String
deriving DecidableEq, Repr

/-- The mutable fields of `LLMConfig` that the conversation claims touch. -/
structure LLMState where
  provider : Option String
  model : Option String
  apiKey : Option String
  conv : ConversationState
deriving DecidableEq, Repr

/-- `LLMConfig.__init__`. -/
def initialLLMState : LLMState := ⟨none, none, none, ⟨false, [], [], none⟩⟩

/-- Python truthiness of an optional string (`None` and `""` are falsy). -/
def pyTruthy : Option String → Bool
  | none => false
  | some s => !s.isEmpty

/-- Substring test on `String`s (Python `pat in s`). -/
def pyInStr (pat s : String) : Bool := pyIn pat.data s.data

/-- The constant persona text built by `_get_system_context`. -/
def personalityText : String :=
  "\n            You are Thufir, a thoughtful and knowledgeable assistant who helps users with technical tasks.\n            You have a calm, methodical approach and always explain what you\x27re doing.\n            You present options clearly and let users make informed choices.\n            "

/-- `LLMConfig._get_system_context`, with the platform reads passed in. -/
def getSystemContext (os terminal projectRoot : String)
    (workflowDirs : List String) : SystemContext :=
  ⟨os, terminal, projectRoot, workflowDirs, "Thufir", personalityText⟩

/-- Python `repr` of a string (as used when a dict is interpolated into a
template; escape corner cases are irrelevant to the claims). -/
def pyReprString (s : String) : String := "\x27" ++ s ++ "\x27"

def pyReprStringList (xs : List String) : String :=
  "[" ++ String.intercalate ", " (xs.map pyReprString) ++ "]"

def pyReprSystemContext (sc : SystemContext) : String :=
  "\x7b\x27os\x27: " ++ pyReprString sc.os ++
  ", \x27terminal\x27: " ++ pyReprString sc.terminal ++
  ", \x27project_root\x27: " ++ pyReprString sc.projectRoot ++
  ", \x27workflows_available\x27: " ++ pyReprStringList sc.workflowsAvailable ++
  ", \x27assistant_name\x27: " ++ pyReprString sc.assistantName ++
  ", \x27personality\x27: " ++ pyReprString sc.personality ++ "\x7d"

def pyReprCtxVal : CtxVal → String
  | .str s => pyReprString s
  | .num n => toString n
  | .sys sc => pyReprSystemContext sc

def pyReprCtx (ctx : Ctx) : String :=
  "\x7b" ++ String.intercalate ", "
    (ctx.map fun kv => pyReprString kv.1 ++ ": " ++ pyReprCtxVal kv.2) ++ "\x7d"

def pyReprMessage (m : Message) : String :=
  "\x7b\x27role\x27: " ++ pyReprString m.role ++
  ", \x27content\x27: " ++ pyReprString m.content ++ "\x7d"

/-- The `twitter_setup` system prompt template of `get_completion`, split at
its `system_context` placeholder. -/
def twitterSetupPromptPrefix : String :=
  "\n                    You are an expert at configuring Twitter API access and OAuth permissions.\n                    Focus on helping the user fix OAuth write permissions issues.\n                    Current context: "

def twitterSetupPromptSuffix : String :=
  "\n                    \n                    Guidelines:\n                    1. Be specific about Twitter Developer Portal locations\n                    2. Mention exact UI elements and settings\n                    3. Give one clear step at a time\n                    4. Focus on write permissions configuration\n                    "

/-- The default system prompt template of `get_completion`, split at its
`system_context` placeholder. -/
def defaultPromptPrefix : String :=
  "\n                    You are Thufir, a technical assistant helping users with workflow automation.\n                    Always introduce yourself when starting a new conversation.\n                    Present available workflows and let users choose.\n                    Be conversational but concise.\n                    Current context: "

def defaultPromptSuffix : String := "\n                    "

/-- The task-specific system prompt: template selected on the current task,
filled with the current context. -/
def systemPromptFor (task : String) (ctx : Ctx) : String :=
  if pyInStr "twitter_setup" task then
    twitterSetupPromptPrefix ++ pyReprCtx ctx ++ twitterSetupPromptSuffix
  else
    defaultPromptPrefix ++ pyReprCtx ctx ++ defaultPromptSuffix

/-- `LLMConfig.start_conversation`. -/
def startConversation (st : LLMState) (task : String)
    (initialContext : Option Ctx) (sysCtx : SystemContext) : LLMState :=
  { st with conv :=
      { active := true
        context := ctxSet (ctxSet (initialContext.getD []) "system" (.sys sysCtx))
          "task" (.str task)
        history := []
        currentTask := some task } }

/-- `LLMConfig.pause_conversation`. -/
def pauseConversation (st : LLMState) : LLMState :=
  if st.conv.active then
    { st with conv := { st.conv with
        context := ctxSet st.conv.context "paused_at"
          (.num st.conv.history.length) } }
  else st

/-- `LLMConfig.add_to_history`. -/
def addToHistory (st : LLMState) (role content : String) : LLMState :=
  if st.conv.active then
    { st with conv := { st.conv with
        history := st.conv.history ++ [⟨role, content⟩] } }
  else st

/-- The outgoing message list built by `get_completion`: history plus the
prompt, then — when a conversation is active — rebuilt as the system prompt
followed by the history (the second build overwrites the first, dropping the
new prompt). -/
def buildMessages (conv : ConversationState) (prompt : String) : List Message :=
  let messages : List Message := []
  let messages := if conv.active then messages ++ conv.history else messages
  let messages := messages ++ [⟨"user", prompt⟩]
  if conv.active then
    ⟨"system", systemPromptFor (conv.currentTask.getD "") conv.context⟩
      :: conv.history
  else
    messages

/-- The opening of `get_completion`: when provider or model is unset (or
empty), load both from the Configuration Store. -/
def loadConfig (env : String → Option String) (st : LLMState) : LLMState :=
  if !pyTruthy st.provider || !pyTruthy st.model then
    { st with provider := env "LLM_PROVIDER", model := env "LLM_MODEL" }
  else st

/-- The rest of `get_completion` after the configuration load: give up when
provider or model is still unset, send the built message list, record the
exchange when active, and convert any raised error into a `none` return. -/
def getCompletionConfigured (api : List Message → Except String String)
    (st1 : LLMState) (prompt : String) : Option String × LLMState :=
  if !pyTruthy st1.provider || !pyTruthy st1.model then
    (none, st1)
  else
    match api (buildMessages st1.conv prompt) with
    | .error _ => (none, st1)
    | .ok resp =>
      if st1.conv.active then
        (some resp, addToHistory (addToHistory st1 "user" prompt) "assistant" resp)
      else
        (some resp, st1)

/-- `LLMConfig.get_completion`. -/
def getCompletion (env : String → Option String)
    (api : List Message → Except String String)
    (st : LLMState) (prompt : String) : Option String × LLMState :=
  getCompletionConfigured api (loadConfig env st) prompt

/-- The recap prompt synthesized by `resume_conversation`. -/
def resumePromptFor (conv : ConversationState) : String :=
  "\n        Resuming our previous conversation about "
  ++ (match conv.currentTask with | some t => t | none => "None")
  ++ ".\n        Context: " ++ pyReprCtx conv.context
  ++ "\n        Previous interaction: "
  ++ (match conv.history.getLast? with
      | some m => pyReprMessage m
      | none => "Starting fresh")
  ++ "\n        \n        Please continue where we left off.\n        "

/-- `LLMConfig.resume_conversation`. -/
def resumeConversation (env : String → Option String)
    (api : List Message → Except String String)
    (st : LLMState) : Option String × LLMState :=
  if !st.conv.active then (none, st)
  else getCompletion env api st (resumePromptFor st.conv)

/-! ### Lemmas about the backend -/

theorem ctxGet_ctxSet (ctx : Ctx) (k : String) (v : CtxVal) :
    ctxGet (ctxSet ctx k v) k = some v := by
  induction ctx with
  | nil => simp [ctxSet, ctxGet]
  | cons p rest ih =>
    cases p with
    | mk k0 v0 =>
      by_cases hk : k0 = k
      · simp [ctxSet, ctxGet, hk]
      · simp [ctxSet, ctxGet, hk, ih]

theorem loadConfig_conv (env : String → Option String) (st : LLMState) :
    (loadConfig env st).conv = st.conv := by
  unfold loadConfig
  split <;> rfl

/-- A successful completion call in an active conversation: the response is
returned, the (user, prompt) and (assistant, response) turns are appended,
and nothing else about the state changes. -/
theorem getCompletion_ok_active_state
    (env : String → Option String) (f : List Message → String)
    (st : LLMState) (prompt : String)
    (hprov : pyTruthy st.provider = true) (hmodel : pyTruthy st.model = true)
    (hactive : st.conv.active = true) :
    (getCompletion env (fun m => Except.ok (f m)) st prompt).1
      = some (f (buildMessages st.conv prompt)) ∧
    ((getCompletion env (fun m => Except.ok (f m)) st prompt).2).conv.history
      = st.conv.history ++
        [⟨"user", prompt⟩, ⟨"assistant", f (buildMessages st.conv prompt)⟩] ∧
    ((getCompletion env (fun m => Except.ok (f m)) st prompt).2).conv.active
      = st.conv.active ∧
    ((getCompletion env (fun m => Except.ok (f m)) st prompt).2).provider
      = st.provider ∧
    ((getCompletion env (fun m => Except.ok (f m)) st prompt).2).model
      = st.model := by
  have hload : loadConfig env st = st := by
    unfold loadConfig
    rw [hprov, hmodel]
    simp
  unfold getCompletion getCompletionConfigured
  rw [hload, hprov, hmodel]
  simp [addToHistory, hactive, List.append_assoc]

theorem getCompletionConfigured_error
    (api : List Message → Except String String) (st1 : LLMState)
    (prompt e : String) (herr : ∀ msgs, api msgs = .error e) :
    getCompletionConfigured api st1 prompt = (none, st1) := by
  unfold getCompletionConfigured
  rw [herr]
  split <;> rfl

theorem getCompletionConfigured_idle
    (api : List Message → Except String String) (st1 : LLMState)
    (prompt : String) (hidle : st1.conv.active = false) :
    (getCompletionConfigured api st1 prompt).2 = st1 := by
  unfold getCompletionConfigured
  split
  · rfl
  · cases hapi : api (buildMessages st1.conv prompt) with
    | error e => rfl
    | ok resp => simp [hidle]

/-! ### Claim theorems about the backend -/

/-- C5: after `start_conversation`, two `get_completion` calls whose
underlying completion calls succeed leave a history of exactly 4 entries in
call order: (user, p₁), (assistant, r₁), (user, p₂), (assistant, r₂). -/
theorem conversation_two_completions_history
    (st : LLMState) (task : String) (ictx : Option Ctx) (sysCtx : SystemContext)
    (env : String → Option String) (f : List Message → String) (p₁ p₂ : String)
    (hprov : pyTruthy st.provider = true) (hmodel : pyTruthy st.model = true) :
    ((getCompletion env (fun m => Except.ok (f m))
        ((getCompletion env (fun m => Except.ok (f m))
            (startConversation st task ictx sysCtx) p₁).2) p₂).2).conv.history
      = [⟨"user", p₁⟩,
         ⟨"assistant", f (buildMessages (startConversation st task ictx sysCtx).conv p₁)⟩,
         ⟨"user", p₂⟩,
         ⟨"assistant", f (buildMessages
            ((getCompletion env (fun m => Except.ok (f m))
                (startConversation st task ictx sysCtx) p₁).2).conv p₂)⟩] := by
  have h1 := getCompletion_ok_active_state env f
    (startConversation st task ictx sysCtx) p₁ hprov hmodel rfl
  have hp : pyTruthy ((getCompletion env (fun m => Except.ok (f m))
      (startConversation st task ictx sysCtx) p₁).2).provider = true := by
    rw [h1.2.2.2.1]; exact hprov
  have hm : pyTruthy ((getCompletion env (fun m => Except.ok (f m))
      (startConversation st task ictx sysCtx) p₁).2).model = true := by
    rw [h1.2.2.2.2]; exact hmodel
  have ha : ((getCompletion env (fun m => Except.ok (f m))
      (startConversation st task ictx sysCtx) p₁).2).conv.active = true := by
    rw [h1.2.2.1]
    rfl
  have h2 := getCompletion_ok_active_state env f
    ((getCompletion env (fun m => Except.ok (f m))
      (startConversation st task ictx sysCtx) p₁).2) p₂ hp hm ha
  rw [h2.2.1, h1.2.1]
  rfl

/-- C5 witness: a configured backend and an always-succeeding provider. -/
theorem conversation_two_completions_history_witness :
    pyTruthy (some "openai") = true ∧
    ((getCompletion (fun _ => none) (fun _ => Except.ok "resp")
        ((getCompletion (fun _ => none) (fun _ => Except.ok "resp")
            (startConversation
              ⟨some "openai", some "gpt-4", none, ⟨false, [], [], none⟩⟩
              "troubleshooting" none
              (getSystemContext "Linux" "xterm" "/app" ["twitter"])) "hello").2)
        "again").2).conv.history
      = [⟨"user", "hello"⟩, ⟨"assistant", "resp"⟩,
         ⟨"user", "again"⟩, ⟨"assistant", "resp"⟩] :=
  ⟨rfl, by
    have h := conversation_two_completions_history
      ⟨some "openai", some "gpt-4", none, ⟨false, [], [], none⟩⟩ "troubleshooting"
      none (getSystemContext "Linux" "xterm" "/app" ["twitter"])
      (fun _ => none) (fun _ => "resp") "hello" "again" rfl rfl
    simpa using h⟩

/-- C6: when the underlying completion call raises, `get_completion` returns
`none`, the error is not propagated, and the conversation state — in
particular the history — is exactly what it was before the call. -/
theorem getCompletion_error_preserves_history
    (env : String → Option String) (api : List Message → Except String String)
    (st : LLMState) (prompt e : String) (herr : ∀ msgs, api msgs = .error e) :
    (getCompletion env api st prompt).1 = none ∧
    (getCompletion env api st prompt).2.conv.history = st.conv.history ∧
    (getCompletion env api st prompt).2.conv = st.conv := by
  unfold getCompletion
  rw [getCompletionConfigured_error api (loadConfig env st) prompt e herr]
  refine ⟨rfl, ?_, loadConfig_conv env st⟩
  rw [loadConfig_conv env st]

/-- C6 witness: an always-raising provider at a configured, active state. -/
theorem getCompletion_error_preserves_history_witness :
    (getCompletion (fun _ => none) (fun _ => Except.error "RateLimitError")
      (startConversation ⟨some "openai", some "gpt-4", none, ⟨false, [], [], none⟩⟩
        "troubleshooting" none
        (getSystemContext "Linux" "xterm" "/app" ["twitter"])) "hello").1 = none ∧
    (getCompletion (fun _ => none) (fun _ => Except.error "RateLimitError")
      (startConversation ⟨some "openai", some "gpt-4", none, ⟨false, [], [], none⟩⟩
        "troubleshooting" none
        (getSystemContext "Linux" "xterm" "/app" ["twitter"])) "hello").2.conv.history
      = [] :=
  ⟨(getCompletion_error_preserves_history (fun _ => none)
      (fun _ => Except.error "RateLimitError")
      (startConversation ⟨some "openai", some "gpt-4", none, ⟨false, [], [], none⟩⟩
        "troubleshooting" none
        (getSystemContext "Linux" "xterm" "/app" ["twitter"])) "hello"
      "RateLimitError" (fun _ => rfl)).1,
   (getCompletion_error_preserves_history (fun _ => none)
      (fun _ => Except.error "RateLimitError")
      (startConversation ⟨some "openai", some "gpt-4", none, ⟨false, [], [], none⟩⟩
        "troubleshooting" none
        (getSystemContext "Linux" "xterm" "/app" ["twitter"])) "hello"
      "RateLimitError" (fun _ => rfl)).2.1⟩

/-- C7: conversation-state invariants. History is appended only while
active — `add_to_history` is a no-op when idle and `get_completion` never
mutates history when idle, even on success; `start_conversation` makes the
state active, resets history to empty and replaces the context with one
built only from its arguments; `pause_conversation` records the current
history length under "paused_at" without truncating history or changing the
active flag, and is a no-op when idle; `resume_conversation` when idle
returns none and leaves the state unchanged. -/
theorem conversation_state_invariants
    (st : LLMState) (role content task : String) (ictx : Option Ctx)
    (sysCtx : SystemContext) (env : String → Option String)
    (api : List Message → Except String String) (prompt : String) :
    (st.conv.active = false → addToHistory st role content = st) ∧
    (st.conv.active = false →
      (getCompletion env api st prompt).2.conv.history = st.conv.history) ∧
    ((startConversation st task ictx sysCtx).conv.active = true ∧
     (startConversation st task ictx sysCtx).conv.history = [] ∧
     ∀ st' : LLMState, (startConversation st' task ictx sysCtx).conv.context
        = (startConversation st task ictx sysCtx).conv.context) ∧
    (st.conv.active = true →
      (pauseConversation st).conv.history = st.conv.history ∧
      (pauseConversation st).conv.active = st.conv.active ∧
      ctxGet (pauseConversation st).conv.context "paused_at"
        = some (.num st.conv.history.length)) ∧
    (st.conv.active = false → pauseConversation st = st) ∧
    (st.conv.active = false → resumeConversation env api st = (none, st)) := by
  refine ⟨?_, ?_, ⟨rfl, rfl, fun st' => rfl⟩, ?_, ?_, ?_⟩
  · intro h
    unfold addToHistory
    rw [h]
    rfl
  · intro h
    unfold getCompletion
    have hidle : (loadConfig env st).conv.active = false := by
      rw [loadConfig_conv env st]; exact h
    rw [getCompletionConfigured_idle api (loadConfig env st) prompt hidle]
    rw [loadConfig_conv env st]
  · intro h
    unfold pauseConversation
    rw [if_pos h]
    exact ⟨rfl, rfl, ctxGet_ctxSet st.conv.context "paused_at" _⟩
  · intro h
    have hneg : ¬ (st.conv.active = true) := by simp [h]
    unfold pauseConversation
    rw [if_neg hneg]
  · intro h
    unfold resumeConversation
    rw [h]
    rfl

/-- C7 witness: the invariants exercised at an idle configured state and at
a freshly started conversation. -/
theorem conversation_state_invariants_witness :
    (addToHistory ⟨some "openai", some "gpt-4", none, ⟨false, [], [], none⟩⟩
      "user" "hi" = ⟨some "openai", some "gpt-4", none, ⟨false, [], [], none⟩⟩) ∧
    ((getCompletion (fun _ => none) (fun _ => Except.ok "resp")
      ⟨some "openai", some "gpt-4", none, ⟨false, [], [], none⟩⟩ "hi").2.conv.history
      = []) ∧
    ctxGet (pauseConversation
      (startConversation ⟨some "openai", some "gpt-4", none, ⟨false, [], [], none⟩⟩
        "troubleshooting" none
        (getSystemContext "Linux" "xterm" "/app" ["twitter"]))).conv.context
      "paused_at" = some (.num 0) :=
  ⟨(conversation_state_invariants
      ⟨some "openai", some "gpt-4", none, ⟨false, [], [], none⟩⟩
      "user" "hi" "troubleshooting" none
      (getSystemContext "Linux" "xterm" "/app" ["twitter"])
      (fun _ => none) (fun _ => Except.ok "resp") "hi").1 rfl,
   (conversation_state_invariants
      ⟨some "openai", some "gpt-4", none, ⟨false, [], [], none⟩⟩
      "user" "hi" "troubleshooting" none
      (getSystemContext "Linux" "xterm" "/app" ["twitter"])
      (fun _ => none) (fun _ => Except.ok "resp") "hi").2.1 rfl,
   ((conversation_state_invariants
      (startConversation ⟨some "openai", some "gpt-4", none, ⟨false, [], [], none⟩⟩
        "troubleshooting" none
        (getSystemContext "Linux" "xterm" "/app" ["twitter"]))
      "user" "hi" "troubleshooting" none
      (getSystemContext "Linux" "xterm" "/app" ["twitter"])
      (fun _ => none) (fun _ => Except.ok "resp") "hi").2.2.2.1 rfl).2.2⟩

/-- C9: in an active conversation the outgoing message list is exactly one
system message — the task-specific template filled with the current
context — followed by the full history as of the start of the call, and the
new prompt's user message is not added to it; when idle, the list is exactly
the single bare user message carrying the prompt. -/
theorem build_messages_shape (conv : ConversationState) (prompt : String) :
    (conv.active = true →
      buildMessages conv prompt
        = ⟨"system", systemPromptFor (conv.currentTask.getD "") conv.context⟩
            :: conv.history ∧
      ((⟨"user", prompt⟩ : Message) ∉ conv.history →
        (⟨"user", prompt⟩ : Message) ∉ buildMessages conv prompt)) ∧
    (conv.active = false →
      buildMessages conv prompt = [⟨"user", prompt⟩]) := by
  constructor
  · intro h
    have hb : buildMessages conv prompt
        = ⟨"system", systemPromptFor (conv.currentTask.getD "") conv.context⟩
            :: conv.history := by
      unfold buildMessages
      rw [h]
      rfl
    refine ⟨hb, ?_⟩
    intro hnot hmem
    rw [hb] at hmem
    rcases List.mem_cons.mp hmem with heq | hmem2
    · have hrole : ("user" : String) = "system" := congrArg Message.role heq
      exact absurd hrole (by decide)
    · exact hnot hmem2
  · intro h
    unfold buildMessages
    rw [h]
    rfl

/-- C9 witness: the two cases at concrete conversation states. -/
theorem build_messages_shape_witness :
    buildMessages
      (startConversation ⟨some "openai", some "gpt-4", none, ⟨false, [], [], none⟩⟩
        "troubleshooting" none
        (getSystemContext "Linux" "xterm" "/app" ["twitter"])).conv "hello"
      = [⟨"system", systemPromptFor "troubleshooting"
            (ctxSet (ctxSet [] "system"
              (.sys (getSystemContext "Linux" "xterm" "/app" ["twitter"])))
              "task" (.str "troubleshooting"))⟩] ∧
    buildMessages (⟨false, [], [], none⟩ : ConversationState) "hello"
      = [⟨"user", "hello"⟩] :=
  ⟨((build_messages_shape
      (startConversation ⟨some "openai", some "gpt-4", none, ⟨false, [], [], none⟩⟩
        "troubleshooting" none
        (getSystemContext "Linux" "xterm" "/app" ["twitter"])).conv "hello").1 rfl).1,
   (build_messages_shape (⟨false, [], [], none⟩ : ConversationState) "hello").2 rfl⟩

/-! ## Twitter reply generation (`src/workflows/twitter/twitter.py`)

`_generate_response` builds a prompt around the mention text, asks the LLM
backend for a completion (modelled by `completionOf`, since `get_completion`
returns an optional string), and post-processes the response. -/

/-- The text of the `_generate_response` prompt before the mention text. -/
def generatePromptPrefix : List Char :=
  chars "\n        Generate a friendly and professional response to this tweet:\n        Tweet: "

/-- The text of the `_generate_response` prompt after the mention text. -/
def generatePromptSuffix : List Char :=
  chars "\n        \n        Requirements:\n        - Keep it under 280 characters\n        - Be helpful and positive\n        - Maintain professional tone\n        - Include relevant emojis if appropriate\n        - Don\x27t include quotes in the response\n        "

/-- `TwitterWorkflow._generate_response`: require a configured LLM, ask for
a completion, fail on a `None` or empty response, and truncate any response
longer than 280 characters to its first 277 followed by "...". -/
def generateResponse (llmConfigured : Bool)
    (completionOf : List Char → Option (List Char))
    (mentionText : List Char) : Except (List Char) (List Char) :=
  if !llmConfigured then
    .error (chars "LLM not configured. Cannot generate response.")
  else
    let prompt := generatePromptPrefix ++ mentionText ++ generatePromptSuffix
    match completionOf prompt with
    | none => .error (chars "Failed to generate response")
    | some response =>
      if response.isEmpty then .error (chars "Failed to generate response")
      else
        .ok (if response.length > 280 then response.take 277 ++ chars "..."
             else response)

/-- C10: whenever `_generate_response` returns a string, that string has at
most 280 characters, and any underlying LLM response longer than 280
characters was replaced by its first 277 characters followed by "...". -/
theorem generate_response_length (cfg : Bool)
    (completionOf : List Char → Option (List Char)) (mentionText r : List Char)
    (h : generateResponse cfg completionOf mentionText = .ok r) :
    r.length ≤ 280 ∧
    ∀ resp, completionOf (generatePromptPrefix ++ mentionText ++ generatePromptSuffix)
        = some resp → resp.length > 280 → r = resp.take 277 ++ chars "..." := by
  unfold generateResponse at h
  split at h
  · exact Except.noConfusion h
  · dsimp only at h
    split at h
    · exact Except.noConfusion h
    · rename_i resp hresp
      split at h
      · exact Except.noConfusion h
      · rename_i hemp
        have hr := Except.ok.inj h
        subst hr
        have h3 : (chars "...").length = 3 := rfl
        constructor
        · by_cases hlen : resp.length > 280
          · rw [if_pos hlen]
            rw [List.length_append, List.length_take, h3]
            omega
          · rw [if_neg hlen]
            omega
        · intro resp2 hresp2 hlong
          rw [hresp] at hresp2
          have hsame : resp = resp2 := Option.some.inj hresp2
          subst hsame
          rw [if_pos hlong]

set_option maxRecDepth 4000 in
/-- C10 witness: a 300-character response gets truncated to 280. -/
theorem generate_response_length_witness :
    generateResponse true (fun _ => some (List.replicate 300 'a')) (chars "hi")
      = .ok (List.replicate 277 'a' ++ chars "...") ∧
    (List.replicate 277 'a' ++ chars "...").length ≤ 280 :=
  ⟨by decide,
   (generate_response_length true (fun _ => some (List.replicate 300 'a'))
      (chars "hi") (List.replicate 277 'a' ++ chars "...") (by decide)).1⟩

end Mentat
